import Mathlib

/-!
Shallow embedding of `src/flashback_scraper.py` (class `FlashBackScraper`).

Strings are modelled with Lean `String` but every operation is implemented
over `List Char`, mirroring the Python string operations used by the source
(`in`, `.lower()`, `.split(x)[0]`, `urllib.parse.unquote`, regex searches of
literal patterns and of `a.*b` patterns).  All inputs considered here are
URL-like ASCII strings without newline characters, so
`re.search(pat, s, re.IGNORECASE)` of a literal pattern coincides with a
case-insensitive substring test and `a.*b` with "an occurrence of `a`
followed later by an occurrence of `b`".
-/

namespace Scraper

/-- Suffix of `s` that follows the first occurrence of `pat`, if `pat`
occurs in `s` at all (`none` otherwise). -/
def dropAfterFirst (pat : List Char) : List Char → Option (List Char)
  | [] => if pat.isEmpty then some [] else none
  | c :: rest =>
    if pat.isPrefixOf (c :: rest) then some ((c :: rest).drop pat.length)
    else dropAfterFirst pat rest

/-- Python `sub in s` (substring containment). -/
def containsSub (s sub : String) : Bool :=
  (dropAfterFirst sub.toList s.toList).isSome

/-- `re.search(a ++ ".*" ++ b, s)` for literal fragments `a`, `b` on
newline-free input: an occurrence of `a` with an occurrence of `b` after it. -/
def seqMatch (s a b : String) : Bool :=
  match dropAfterFirst a.toList s.toList with
  | none => false
  | some rest => (dropAfterFirst b.toList rest).isSome

/-- Python `s.lower()` (ASCII inputs). -/
def lowerStr (s : String) : String :=
  ⟨s.toList.map Char.toLower⟩

/-- Python `s.startswith(p)` / test that `p` is a prefix of `s`. -/
def startsWithS (s p : String) : Bool :=
  p.toList.isPrefixOf s.toList

/-- `full_url.split('#')[0]`: prefix before the first `#`. -/
def stripFrag (s : String) : String :=
  ⟨s.toList.takeWhile (· != '#')⟩

/-- `url.split('?')[0].split('#')[0]`: prefix before the first `?` or `#`. -/
def stripQF (s : String) : String :=
  ⟨(s.toList.takeWhile (· != '?')).takeWhile (· != '#')⟩

/-- Value of a hexadecimal digit character, if it is one. -/
def hexVal (c : Char) : Option Nat :=
  if '0' ≤ c ∧ c ≤ '9' then some (c.toNat - '0'.toNat)
  else if 'a' ≤ c ∧ c ≤ 'f' then some (c.toNat - 'a'.toNat + 10)
  else if 'A' ≤ c ∧ c ≤ 'F' then some (c.toNat - 'A'.toNat + 10)
  else none

/-- Python `str.split(sep)` for a one-character separator, over `List Char`. -/
def splitOnChar (c : Char) : List Char → List (List Char)
  | [] => [[]]
  | x :: rest =>
    let r := splitOnChar c rest
    if x = c then [] :: r
    else
      match r with
      | [] => [[x]]
      | h :: t => (x :: h) :: t

/-- Decoding of one post-`%` segment, as in `urllib.parse.unquote`: if the
segment starts with two hex digits of an ASCII value, replace them by that
character, else keep the `%` and the segment as written.  Escapes of
values outside the ASCII range, which Python would feed into a UTF-8
decode, are left as written — never exercised by the ASCII inputs
considered here. -/
def pdSeg (seg : List Char) : List Char :=
  match seg with
  | a :: b :: rest =>
    (match hexVal a, hexVal b with
     | some x, some y =>
       if x * 16 + y < 128 then Char.ofNat (x * 16 + y) :: rest else '%' :: seg
     | _, _ => '%' :: seg)
  | _ => '%' :: seg

/-- The character-level pass of `urllib.parse.unquote`: split on `%` and
decode each following segment (`pdSeg`). -/
def pdAux (l : List Char) : List Char :=
  match splitOnChar '%' l with
  | [] => []
  | first :: parts => first ++ (parts.map pdSeg).flatten

/-- Python `urllib.parse.unquote` (ASCII modelling, see `pdAux`). -/
def percentDecode (s : String) : String :=
  ⟨pdAux s.toList⟩

/-- Scheme of an absolute URL: the part before the first `:`. -/
def schemeOf (s : String) : String :=
  ⟨s.toList.takeWhile (· != ':')⟩

/-- Characters after `scheme://`. -/
def afterScheme (s : String) : List Char :=
  s.toList.drop ((schemeOf s).toList.length + 3)

/-- `scheme://host` of an absolute URL. -/
def originOf (s : String) : String :=
  schemeOf s ++ "://" ++ ⟨(afterScheme s).takeWhile (· != '/')⟩

/-- Path of an absolute URL up to and including the last `/`. -/
def dirPathOf (s : String) : String :=
  ⟨(((afterScheme s).dropWhile (· != '/')).reverse.dropWhile (· != '/')).reverse⟩

/-- Modelled from the collaborator interface (`urllib.parse.urljoin`):
resolves `url` against `base`.  An absolute `http(s)` URL is returned
unchanged (the only branch the theorems below exercise); the empty string
yields the base; protocol-relative, root-relative and path-relative
references are resolved against the base's scheme/origin/directory. -/
def urljoin (base url : String) : String :=
  if url = "" then base
  else if startsWithS url "http://" || startsWithS url "https://" then url
  else if startsWithS url "//" then schemeOf base ++ ":" ++ url
  else if startsWithS url "/" then originOf base ++ url
  else originOf base ++ dirPathOf base ++ url

/-- `FlashBackScraper.is_flashback_url`: case-insensitive search of the
patterns `reglement-flashback-fa`, `flashback`, `/view/`,
`sites\.google\.com` (all literal). -/
def is_flashback_url (url : String) : Bool :=
  let u := lowerStr url
  containsSub u "reglement-flashback-fa" || containsSub u "flashback" ||
    containsSub u "/view/" || containsSub u "sites.google.com"

/-- `FlashBackScraper.normalize_url`: join with the base, cut at the first
fragment delimiter, percent-decode, and keep the result only if it passes
the scope filter. -/
def normalize_url (url base_url : String) : Option String :=
  let fu := urljoin base_url url
  let fu := stripFrag fu
  let fu := percentDecode fu
  if is_flashback_url fu then some fu else none

/-- `FlashBackScraper.should_skip_image`: noise heuristics over the URL
(patterns `catalogue.*illegal`, `header.*background`, `banner.*main`,
`wallpaper`, `backdrop`) and, when a non-empty context is given, over the
context (`main.*header|hero.*banner|cover.*background`), all
case-insensitive. -/
def should_skip_image (image_url : String) (context : String) : Bool :=
  let u := lowerStr image_url
  if seqMatch u "catalogue" "illegal" then true
  else if seqMatch u "header" "background" then true
  else if seqMatch u "banner" "main" then true
  else if containsSub u "wallpaper" then true
  else if containsSub u "backdrop" then true
  else if context ≠ "" then
    let c := lowerStr context
    seqMatch c "main" "header" || seqMatch c "hero" "banner" ||
      seqMatch c "cover" "background"
  else false

/-- `FlashBackScraper.normalize_image_url`: join, percent-decode, then keep
the URL if its lower-cased form has a known image extension followed by `?`
or end-of-string, or if it points at an allow-listed Google image host. -/
def normalize_image_url (url base_url : String) : Option String :=
  let fu := percentDecode (urljoin base_url url)
  let lo := lowerStr fu
  let exts := ["jpg", "jpeg", "png", "gif", "bmp", "webp", "svg"]
  if exts.any (fun e =>
      ("." ++ e).toList.isSuffixOf lo.toList || containsSub lo ("." ++ e ++ "?")) then
    some fu
  else if containsSub fu "googleusercontent.com" || containsSub fu "ggpht.com" ||
      containsSub fu "lh3.google" then
    some fu
  else none

/-- `if l.contains x then l else l.append x`: Python `set.add`, linearised
as an append-if-absent on a duplicate-free list. -/
def insertSet (x : String) (l : List String) : List String :=
  if x ∈ l then l else l ++ [x]

/-- Python `set.update`: insert every element of `b` into `a`. -/
def unionSet (a b : List String) : List String :=
  b.foldl (fun acc x => insertSet x acc) a

/-- An `img` element as handed over by the HTML-parser collaborator: the
five source attributes the scraper reads (absent attribute = `none`)
and the concatenated class/alt/title/ancestor context string. -/
structure ImgTag where
  src : Option String
  dataSrc : Option String
  dataLazySrc : Option String
  dataOriginal : Option String
  srcset : Option String
  context : String
deriving DecidableEq

/-- `src.split(',')[0].split(' ')[0]`: the URL portion of a source-set
value preceding the first descriptor. -/
def srcsetFirstUrl (s : String) : String :=
  ⟨(s.toList.takeWhile (· != ',')).takeWhile (· != ' ')⟩

/-- One iteration of the attribute loop of
`extract_image_urls_from_html` (lines 289-299): if the attribute value is
present and non-empty (Python truthiness), split a source-set value at the
first descriptor, normalise, drop noise, and add to the result set. -/
def attrStep (pageUrl ctx : String) (isSrcSet : Bool) (v : Option String)
    (acc : List String) : List String :=
  match v with
  | none => acc
  | some s =>
    if s = "" then acc
    else
      match normalize_image_url (if isSrcSet then srcsetFirstUrl s else s) pageUrl with
      | none => acc
      | some u => if should_skip_image u ctx then acc else insertSet u acc

/-- The candidate URLs one `img` element contributes in
`extract_image_urls_from_html`: the loop
`for attr in ['src', 'data-src', 'data-lazy-src', 'data-original', 'srcset']`
run left to right. -/
def extractImgCandidates (pageUrl : String) (img : ImgTag) : List String :=
  attrStep pageUrl img.context true img.srcset
    (attrStep pageUrl img.context false img.dataOriginal
      (attrStep pageUrl img.context false img.dataLazySrc
        (attrStep pageUrl img.context false img.dataSrc
          (attrStep pageUrl img.context false img.src []))))

/-- A parsed page as handed over by the HTML-parser collaborator: the
`href` values of its anchor elements. -/
structure Doc where
  anchors : List String
deriving DecidableEq

/-- Allow-list of navigation keywords from `extract_navbar_urls`. -/
def navKeywords : List String :=
  ["reglement", "savoir", "aide", "discord", "services", "gouvernement",
   "ems", "pompier", "police", "army", "illegal",
   "gang", "orga", "petite", "frappe", "independant", "entreprise"]

/-- First loop of `extract_navbar_urls` (lines 200-217): normalise the
href, drop visited URLs, drop catalogue hrefs, keep hrefs matching a
navigation keyword. -/
def navStep1 (pageUrl : String) (visited : List String) (acc : List String)
    (href : String) : List String :=
  if href = "" then acc
  else
    match normalize_url href pageUrl with
    | none => acc
    | some nu =>
      if nu ∈ visited then acc
      else if containsSub (lowerStr href) "catalogue" then acc
      else if navKeywords.any (fun k => containsSub (lowerStr href) k) then
        insertSet nu acc
      else acc

/-- Second loop of `extract_navbar_urls` (lines 220-230): hrefs containing
`view/` and `reglement-flashback-fa` (case-sensitive), catalogue hrefs
excluded, normalised and added. -/
def navStep2 (pageUrl : String) (acc : List String) (href : String) :
    List String :=
  if href = "" then acc
  else if containsSub href "view/" && containsSub href "reglement-flashback-fa" then
    if containsSub (lowerStr href) "catalogue" then acc
    else
      match normalize_url href pageUrl with
      | none => acc
      | some nu => insertSet nu acc
  else acc

/-- `FlashBackScraper.extract_navbar_urls`: both anchor loops run over all
links of the page, the second on the set produced by the first. -/
def extract_navbar_urls (d : Doc) (pageUrl : String) (visited : List String) :
    List String :=
  d.anchors.foldl (navStep2 pageUrl) (d.anchors.foldl (navStep1 pageUrl visited) [])

/-- `15 * 1024 * 1024`: the hard byte ceiling of `download_image`. -/
def MB15 : Nat := 15 * 1024 * 1024

/-- A fetched media payload, with the external collaborators' results as
oracles: its byte length, its MD5 content digest, and the Pillow decode
result (`none` = `Image.open` raised). -/
structure Payload where
  len : Nat
  digest : String
  dims : Option (Nat × Nat)
deriving DecidableEq

/-- Outcome of the media GET in `download_image`: a status-200 body, a
non-200 status, or an exception (timeout/transport) during the fetch. -/
inductive FetchResult where
  | ok (p : Payload)
  | badStatus (code : Nat)
  | netError
deriving DecidableEq

/-- The four `self.stats` counters `download_image` touches. -/
structure DLStats where
  images_downloaded : Nat
  images_skipped : Nat
  duplicates_removed : Nat
  size_filtered : Nat
deriving DecidableEq

/-- Downloader-visible state: `self.image_hashes`, `self.stats`, and the
digests of the files actually written to the output directory. -/
structure DState where
  image_hashes : List String
  stats : DLStats
  saved : List String
deriving DecidableEq

/-- Tail of `download_image` (lines 463-474): `image_hashes.add` happens
first (line 466), then the `aiofiles` write; a write failure is caught by
the outer handler, which counts `images_skipped` and returns `False`. -/
def persistStep (p : Payload) (persistOk : Bool) (s : DState) : DState × Bool :=
  let s := { s with image_hashes := insertSet p.digest s.image_hashes }
  if persistOk then
    ({ s with saved := p.digest :: s.saved,
              stats := { s.stats with
                images_downloaded := s.stats.images_downloaded + 1 } }, true)
  else
    ({ s with stats := { s.stats with
                images_skipped := s.stats.images_skipped + 1 } }, false)

/-- `FlashBackScraper.download_image`, with the network fetch, the image
decoder and the filesystem write as oracles (`fr`, `Payload.dims`,
`persistOk`).  Faithful to the source's control flow: noise re-check,
15 MiB ceiling, duplicate-digest check, Pillow dimension gates (or the
1000-byte fallback without Pillow), then digest registration and write;
non-200 statuses and escaped exceptions fall through to the
`images_skipped` increment. -/
def download_image (hasPillow : Bool) (image_url : String) (fr : FetchResult)
    (persistOk : Bool) (s : DState) : DState × Bool :=
  if should_skip_image image_url "" then (s, false)
  else
    match fr with
    | .badStatus _ =>
      ({ s with stats := { s.stats with
          images_skipped := s.stats.images_skipped + 1 } }, false)
    | .netError =>
      ({ s with stats := { s.stats with
          images_skipped := s.stats.images_skipped + 1 } }, false)
    | .ok p =>
      if p.len > MB15 then (s, false)
      else if p.digest ∈ s.image_hashes then
        ({ s with stats := { s.stats with
            duplicates_removed := s.stats.duplicates_removed + 1 } }, false)
      else if hasPillow then
        match p.dims with
        | none => (s, false)
        | some (w, h) =>
          if w < 100 ∨ h < 100 then
            ({ s with stats := { s.stats with
                size_filtered := s.stats.size_filtered + 1 } }, false)
          else if w > 4000 ∨ h > 3000 then
            ({ s with stats := { s.stats with
                size_filtered := s.stats.size_filtered + 1 } }, false)
          else persistStep p persistOk s
      else
        if p.len < 1000 then
          ({ s with stats := { s.stats with
              size_filtered := s.stats.size_filtered + 1 } }, false)
        else persistStep p persistOk s

/-- Phase 3 of `crawl_flashback_site`: download every found image in turn,
counting the `True` results (the orchestrator's `images_downloaded`). -/
def downloadRun (hasPillow : Bool) (fetchImage : String → FetchResult)
    (persistOk : String → Bool) : List String → DState → DState × Nat
  | [], s => (s, 0)
  | u :: rest, s =>
    let r := download_image hasPillow u (fetchImage u) (persistOk u) s
    let t := downloadRun hasPillow fetchImage persistOk rest r.1
    (t.1, (if r.2 then 1 else 0) + t.2)

/-- Orchestrator-visible crawl state: `self.visited_urls`,
`self.navbar_pages`, `self.found_images` and the `pages_crawled` counter. -/
structure CrawlState where
  visited : List String
  navbar_pages : List String
  found_images : List String
  pages_crawled : Nat
deriving DecidableEq

def initialCrawlState : CrawlState := ⟨[], [], [], 0⟩

/-- The home-page guard of the crawl phase (lines 558-562): the fetched
URL stripped of query/fragment equals the normalised home URL, or the URL
contains the home marker `accueil`. -/
def isHomeUrl (homeNorm url : String) : Bool :=
  stripQF url == homeNorm || containsSub (lowerStr url) "accueil"

/-- Phase 1 of `crawl_flashback_site` (lines 522-532): fetch the home page;
on success mark it visited, count it, and extract navigation links only —
`found_images` is untouched by design. -/
def discoverHome (fetchPage : String → Option (String × Doc)) (base_url : String)
    (s : CrawlState) : CrawlState :=
  match fetchPage base_url with
  | none => s
  | some (url, d) =>
    let s := { s with visited := insertSet url s.visited,
                      pages_crawled := s.pages_crawled + 1 }
    { s with navbar_pages := unionSet s.navbar_pages (extract_navbar_urls d url s.visited) }

/-- Handling of one fetch result in the phase-2 loop (lines 551-567):
failures are dropped; a fetched page is marked visited and counted, then
the home-page guard skips media extraction, else the page's media
candidates are unioned into `found_images`. -/
def processResult (extractImages : Doc → String → List String) (homeNorm : String)
    (s : CrawlState) (r : Option (String × Doc)) : CrawlState :=
  match r with
  | none => s
  | some (url, d) =>
    let s := { s with visited := insertSet url s.visited,
                      pages_crawled := s.pages_crawled + 1 }
    if isHomeUrl homeNorm url then s
    else { s with found_images := unionSet s.found_images (extractImages d url) }

/-- Phase 2 of `crawl_flashback_site`: process the pending navigation pages
one fetch result at a time (a linearisation of the batched
`asyncio.gather` whose set/counter updates are commutative). -/
def crawlLoop (fetchPage : String → Option (String × Doc))
    (extractImages : Doc → String → List String) (homeNorm : String) :
    List String → CrawlState → CrawlState
  | [], s => s
  | u :: rest, s =>
    crawlLoop fetchPage extractImages homeNorm rest
      (processResult extractImages homeNorm s (fetchPage u))

/-- Crawl state after phases 1 and 2: discover from the home page, then
crawl `navbar_pages - visited_urls`. -/
def finalCrawlState (fetchPage : String → Option (String × Doc))
    (extractImages : Doc → String → List String) (base_url : String) : CrawlState :=
  let homeNorm := stripQF base_url
  let s1 := discoverHome fetchPage base_url initialCrawlState
  let remaining := s1.navbar_pages.filter (fun u => decide (u ∉ s1.visited))
  crawlLoop fetchPage extractImages homeNorm remaining s1

/-- The `stats` dict returned by `crawl_flashback_site`. -/
structure RunStats where
  pages_crawled : Nat
  images_found : Nat
  images_downloaded : Nat
deriving DecidableEq

/-- `FlashBackScraper.crawl_flashback_site`: the three-phase orchestrator,
with page fetching, media extraction, media fetching and persistence as
oracles.  Returns the final report. -/
def crawl_flashback_site (fetchPage : String → Option (String × Doc))
    (extractImages : Doc → String → List String) (hasPillow : Bool)
    (fetchImage : String → FetchResult) (persistOk : String → Bool)
    (base_url : String) : RunStats :=
  let s2 := finalCrawlState fetchPage extractImages base_url
  let dres := downloadRun hasPillow fetchImage persistOk s2.found_images
    ⟨[], ⟨0, 0, 0, 0⟩, []⟩
  ⟨s2.pages_crawled, s2.found_images.length, dres.2⟩

/-! ### Helper lemmas -/

theorem mem_insertSet {y x : String} {l : List String} :
    y ∈ insertSet x l ↔ y = x ∨ y ∈ l := by
  unfold insertSet
  split
  · constructor
    · exact fun h => Or.inr h
    · rintro (rfl | h) <;> assumption
  · simp [List.mem_append, or_comm]

theorem mem_insertSet_of_mem {y x : String} {l : List String} (h : y ∈ l) :
    y ∈ insertSet x l :=
  mem_insertSet.mpr (Or.inr h)

theorem self_mem_insertSet {x : String} {l : List String} :
    x ∈ insertSet x l :=
  mem_insertSet.mpr (Or.inl rfl)

theorem mem_unionSet {y : String} {a b : List String} :
    y ∈ unionSet a b ↔ y ∈ a ∨ y ∈ b := by
  induction b generalizing a with
  | nil => simp [unionSet]
  | cons x xs ih =>
    unfold unionSet at ih ⊢
    simp only [List.foldl_cons, ih, mem_insertSet, List.mem_cons]
    tauto

theorem splitOnChar_of_not_mem {c : Char} {l : List Char} (h : c ∉ l) :
    splitOnChar c l = [l] := by
  induction l with
  | nil => rfl
  | cons x rest ih =>
    have hx : x ≠ c := fun hx => h (hx ▸ List.mem_cons_self x rest)
    have hr : c ∉ rest := fun hr => h (List.mem_cons_of_mem x hr)
    unfold splitOnChar
    simp only [if_neg hx, ih hr]

theorem pdAux_of_no_percent {l : List Char} (h : '%' ∉ l) : pdAux l = l := by
  unfold pdAux
  rw [splitOnChar_of_not_mem h]
  simp

theorem takeWhile_ne_of_not_mem {p : Char} {l : List Char} (h : p ∉ l) :
    l.takeWhile (· != p) = l := by
  induction l with
  | nil => rfl
  | cons c rest ih =>
    have hc : c ≠ p := fun hc => h (hc ▸ List.mem_cons_self c rest)
    have hr : p ∉ rest := fun hr => h (List.mem_cons_of_mem c hr)
    simp [List.takeWhile_cons, bne_iff_ne, hc, ih hr]

theorem percentDecode_of_no_percent {s : String} (h : ¬ s.toList.contains '%') :
    percentDecode s = s := by
  have h' : '%' ∉ s.toList := by simpa using h
  show (⟨pdAux s.toList⟩ : String) = s
  rw [pdAux_of_no_percent h']
  cases s
  rfl

theorem stripFrag_of_no_hash {s : String} (h : ¬ s.toList.contains '#') :
    stripFrag s = s := by
  have h' : '#' ∉ s.toList := by simpa using h
  show (⟨s.toList.takeWhile (· != '#')⟩ : String) = s
  rw [takeWhile_ne_of_not_mem h']
  cases s
  rfl

theorem urljoin_absolute {base url : String}
    (h : startsWithS url "http://" = true ∨ startsWithS url "https://" = true) :
    urljoin base url = url := by
  have hne : url ≠ "" := by
    rintro rfl
    rcases h with h | h <;> simp [startsWithS, List.isPrefixOf] at h
  unfold urljoin
  rw [if_neg hne, if_pos (by rcases h with h | h <;> simp [h])]

theorem normalize_url_flashback {url base v : String}
    (h : normalize_url url base = some v) : is_flashback_url v = true := by
  simp only [normalize_url] at h
  split at h
  · rename_i hfb
    injection h with h'
    exact h' ▸ hfb
  · exact absurd h (by simp)

theorem mem_attrStep_of_mem {pageUrl ctx : String} {b : Bool} {v : Option String}
    {acc : List String} {u : String} (h : u ∈ acc) :
    u ∈ attrStep pageUrl ctx b v acc := by
  unfold attrStep
  cases v with
  | none => exact h
  | some s =>
    by_cases he : s = ""
    · simp only [if_pos he]
      exact h
    · simp only [if_neg he]
      cases hn : normalize_image_url (if b then srcsetFirstUrl s else s) pageUrl with
      | none => simp only [hn]; exact h
      | some u' =>
        simp only [hn]
        by_cases hs : should_skip_image u' ctx = true
        · simp only [if_pos hs]
          exact h
        · simp only [if_neg hs]
          exact mem_insertSet_of_mem h

theorem attrStep_mem_self {pageUrl ctx : String} {b : Bool} {s u : String}
    {acc : List String}
    (hn : normalize_image_url (if b then srcsetFirstUrl s else s) pageUrl = some u)
    (hne : s ≠ "") (hsk : should_skip_image u ctx = false) :
    u ∈ attrStep pageUrl ctx b (some s) acc := by
  simp only [attrStep, if_neg hne, hn]
  rw [if_neg (by simp only [hsk]; exact Bool.false_ne_true)]
  exact self_mem_insertSet

/-- Case split on `download_image`: either the run leaves `saved` and
`image_hashes` untouched, or the payload reached `persistStep` with a digest
not yet registered. -/
theorem download_image_cases (hasPillow : Bool) (u : String) (fr : FetchResult)
    (persistOk : Bool) (s : DState) :
    ((download_image hasPillow u fr persistOk s).1.saved = s.saved ∧
     (download_image hasPillow u fr persistOk s).1.image_hashes = s.image_hashes) ∨
    (∃ p, fr = FetchResult.ok p ∧ p.digest ∉ s.image_hashes ∧
      download_image hasPillow u fr persistOk s = persistStep p persistOk s) := by
  unfold download_image
  by_cases hn : should_skip_image u "" = true
  · rw [if_pos hn]
    exact Or.inl ⟨rfl, rfl⟩
  rw [if_neg hn]
  cases fr with
  | badStatus c => exact Or.inl ⟨rfl, rfl⟩
  | netError => exact Or.inl ⟨rfl, rfl⟩
  | ok p =>
    simp only []
    by_cases h1 : p.len > MB15
    · rw [if_pos h1]
      exact Or.inl ⟨rfl, rfl⟩
    rw [if_neg h1]
    by_cases h2 : p.digest ∈ s.image_hashes
    · rw [if_pos h2]
      exact Or.inl ⟨rfl, rfl⟩
    rw [if_neg h2]
    cases hasPillow with
    | false =>
      rw [if_neg (by simp)]
      by_cases h3 : p.len < 1000
      · rw [if_pos h3]
        exact Or.inl ⟨rfl, rfl⟩
      · rw [if_neg h3]
        exact Or.inr ⟨p, rfl, h2, rfl⟩
    | true =>
      rw [if_pos rfl]
      cases hd : p.dims with
      | none => exact Or.inl ⟨rfl, rfl⟩
      | some wh =>
        obtain ⟨w, h⟩ := wh
        simp only []
        by_cases h3 : w < 100 ∨ h < 100
        · rw [if_pos h3]
          exact Or.inl ⟨rfl, rfl⟩
        rw [if_neg h3]
        by_cases h4 : w > 4000 ∨ h > 3000
        · rw [if_pos h4]
          exact Or.inl ⟨rfl, rfl⟩
        · rw [if_neg h4]
          exact Or.inr ⟨p, rfl, h2, rfl⟩

/-- `persistStep` preserves the "saved files are duplicate-free and all
registered" invariant when the digest was not yet registered. -/
theorem persistStep_saved_invariant {p : Payload} {persistOk : Bool} {s : DState}
    (hnd : s.saved.Nodup) (hsub : ∀ x ∈ s.saved, x ∈ s.image_hashes)
    (hnew : p.digest ∉ s.image_hashes) :
    (persistStep p persistOk s).1.saved.Nodup ∧
    ∀ x ∈ (persistStep p persistOk s).1.saved,
      x ∈ (persistStep p persistOk s).1.image_hashes := by
  unfold persistStep
  cases persistOk with
  | false =>
    rw [if_neg (by simp)]
    exact ⟨hnd, fun x hx => mem_insertSet_of_mem (hsub x hx)⟩
  | true =>
    rw [if_pos rfl]
    refine ⟨List.nodup_cons.mpr ⟨fun hmem => hnew (hsub _ hmem), hnd⟩, ?_⟩
    intro x hx
    rcases List.mem_cons.mp hx with rfl | hx'
    · exact self_mem_insertSet
    · exact mem_insertSet_of_mem (hsub x hx')

/-- One `download_image` call preserves the saved-files invariant. -/
theorem download_image_saved_invariant (hasPillow : Bool) (u : String)
    (fr : FetchResult) (persistOk : Bool) (s : DState)
    (hnd : s.saved.Nodup) (hsub : ∀ x ∈ s.saved, x ∈ s.image_hashes) :
    (download_image hasPillow u fr persistOk s).1.saved.Nodup ∧
    ∀ x ∈ (download_image hasPillow u fr persistOk s).1.saved,
      x ∈ (download_image hasPillow u fr persistOk s).1.image_hashes := by
  rcases download_image_cases hasPillow u fr persistOk s with ⟨hs, hh⟩ | ⟨p, _, hnew, heq⟩
  · rw [hs, hh]
    exact ⟨hnd, hsub⟩
  · rw [heq]
    exact persistStep_saved_invariant hnd hsub hnew

/-- The digest set only ever grows across one `download_image` call. -/
theorem download_image_hashes_mono (hasPillow : Bool) (u : String)
    (fr : FetchResult) (persistOk : Bool) (s : DState) {d : String}
    (hd : d ∈ s.image_hashes) :
    d ∈ (download_image hasPillow u fr persistOk s).1.image_hashes := by
  rcases download_image_cases hasPillow u fr persistOk s with ⟨_, hh⟩ | ⟨p, _, _, heq⟩
  · rw [hh]
    exact hd
  · rw [heq]
    unfold persistStep
    cases persistOk with
    | false =>
      rw [if_neg (by simp)]
      exact mem_insertSet_of_mem hd
    | true =>
      rw [if_pos rfl]
      exact mem_insertSet_of_mem hd

/-- A payload whose digest is already registered is always rejected and
nothing new is saved. -/
theorem download_image_dup_reject (hasPillow : Bool) (u : String) (p : Payload)
    (persistOk : Bool) (s : DState) (hd : p.digest ∈ s.image_hashes) :
    (download_image hasPillow u (.ok p) persistOk s).2 = false ∧
    (download_image hasPillow u (.ok p) persistOk s).1.saved = s.saved := by
  unfold download_image
  by_cases hn : should_skip_image u "" = true
  · rw [if_pos hn]
    exact ⟨rfl, rfl⟩
  rw [if_neg hn]
  simp only []
  by_cases h1 : p.len > MB15
  · rw [if_pos h1]
    exact ⟨rfl, rfl⟩
  rw [if_neg h1, if_pos hd]
  exact ⟨rfl, rfl⟩

/-- The whole fetch phase preserves duplicate-freeness of the saved files. -/
theorem downloadRun_saved_nodup (hasPillow : Bool) (fetchImage : String → FetchResult)
    (persistOk : String → Bool) (urls : List String) (s : DState)
    (hnd : s.saved.Nodup) (hsub : ∀ x ∈ s.saved, x ∈ s.image_hashes) :
    (downloadRun hasPillow fetchImage persistOk urls s).1.saved.Nodup := by
  induction urls generalizing s with
  | nil => exact hnd
  | cons u rest ih =>
    unfold downloadRun
    simp only []
    have hinv := download_image_saved_invariant hasPillow u (fetchImage u)
      (persistOk u) s hnd hsub
    exact ih _ hinv.1 hinv.2

/-! ### Claims -/

/-- C1 (claim refuted by the code — the registration/persistence ordering):
a unique, well-dimensioned 500x400 payload whose filesystem write fails is
rejected (`False`) and nothing is saved, but its content digest IS left
registered in `image_hashes`, because line 466 adds the digest before the
line 469 write.  The claim (and the spec's downloader contract) require the
digest not to remain registered after a persistence failure. -/
theorem download_image_persist_failure_keeps_digest :
    (download_image true "https://lh3.google/img-a.jpg"
        (.ok ⟨5000, "d41d8cd9", some (500, 400)⟩) false
        ⟨[], ⟨0, 0, 0, 0⟩, []⟩).2 = false ∧
    (download_image true "https://lh3.google/img-a.jpg"
        (.ok ⟨5000, "d41d8cd9", some (500, 400)⟩) false
        ⟨[], ⟨0, 0, 0, 0⟩, []⟩).1.saved = [] ∧
    "d41d8cd9" ∈ (download_image true "https://lh3.google/img-a.jpg"
        (.ok ⟨5000, "d41d8cd9", some (500, 400)⟩) false
        ⟨[], ⟨0, 0, 0, 0⟩, []⟩).1.image_hashes := by decide

/-- C8: a payload whose byte length exceeds the 15 MiB ceiling is never
persisted and never registers its digest — `download_image` returns the
state completely unchanged together with `False`, whatever the URL, the
decoder availability, the dimensions or the persistence oracle. -/
theorem download_image_oversize_never_persisted
    (hasPillow : Bool) (u : String) (p : Payload) (persistOk : Bool) (s : DState)
    (hbig : MB15 < p.len) :
    (download_image hasPillow u (.ok p) persistOk s).1 = s ∧
    (download_image hasPillow u (.ok p) persistOk s).2 = false := by
  by_cases hn : should_skip_image u "" = true <;>
    simp [download_image, hn, hbig]

/-- Witness for C8 at a 16 MiB payload. -/
theorem download_image_oversize_never_persisted_witness :
    MB15 < 16 * 1024 * 1024 ∧
    ((download_image true "https://h/big.jpg"
        (.ok ⟨16 * 1024 * 1024, "dbig", some (500, 400)⟩) true
        ⟨[], ⟨0, 0, 0, 0⟩, []⟩).1 = ⟨[], ⟨0, 0, 0, 0⟩, []⟩ ∧
     (download_image true "https://h/big.jpg"
        (.ok ⟨16 * 1024 * 1024, "dbig", some (500, 400)⟩) true
        ⟨[], ⟨0, 0, 0, 0⟩, []⟩).2 = false) :=
  ⟨by decide,
   download_image_oversize_never_persisted true "https://h/big.jpg"
     ⟨16 * 1024 * 1024, "dbig", some (500, 400)⟩ true
     ⟨[], ⟨0, 0, 0, 0⟩, []⟩ (by decide)⟩

/-- C7: a payload that reaches dimension validation (no noise match, within
the byte ceiling, digest not yet seen, decoder available) and decodes with
either dimension below 100 or width above 4000 or height above 3000 is
rejected: `download_image` returns `False`, `size_filtered` increments by
exactly one, and neither the saved files nor the digest set change. -/
theorem download_image_dimension_reject_counts
    (u : String) (p : Payload) (w h : Nat) (persistOk : Bool) (s : DState)
    (hnoise : should_skip_image u "" = false)
    (hlen : p.len ≤ MB15)
    (hdup : p.digest ∉ s.image_hashes)
    (hdims : p.dims = some (w, h))
    (hbad : (w < 100 ∨ h < 100) ∨ (4000 < w ∨ 3000 < h)) :
    (download_image true u (.ok p) persistOk s).2 = false ∧
    (download_image true u (.ok p) persistOk s).1.stats.size_filtered
      = s.stats.size_filtered + 1 ∧
    (download_image true u (.ok p) persistOk s).1.saved = s.saved ∧
    (download_image true u (.ok p) persistOk s).1.image_hashes = s.image_hashes := by
  have hlen' : ¬ p.len > MB15 := by omega
  by_cases h1 : w < 100 ∨ h < 100
  · simp [download_image, hnoise, hlen', hdup, hdims, h1]
  · have h2 : 4000 < w ∨ 3000 < h := by tauto
    simp [download_image, hnoise, hlen', hdup, hdims, h1, h2]

/-- Witness for C7 at a 50x200 payload. -/
theorem download_image_dimension_reject_counts_witness :
    (download_image true "https://h/a.jpg" (.ok ⟨5000, "d1", some (50, 200)⟩) true
        ⟨[], ⟨0, 0, 0, 0⟩, []⟩).2 = false ∧
    (download_image true "https://h/a.jpg" (.ok ⟨5000, "d1", some (50, 200)⟩) true
        ⟨[], ⟨0, 0, 0, 0⟩, []⟩).1.stats.size_filtered = 0 + 1 ∧
    (download_image true "https://h/a.jpg" (.ok ⟨5000, "d1", some (50, 200)⟩) true
        ⟨[], ⟨0, 0, 0, 0⟩, []⟩).1.saved = [] ∧
    (download_image true "https://h/a.jpg" (.ok ⟨5000, "d1", some (50, 200)⟩) true
        ⟨[], ⟨0, 0, 0, 0⟩, []⟩).1.image_hashes = [] :=
  download_image_dimension_reject_counts "https://h/a.jpg"
    ⟨5000, "d1", some (50, 200)⟩ 50 200 true ⟨[], ⟨0, 0, 0, 0⟩, []⟩
    (by decide) (by decide) (by decide) rfl (Or.inl (Or.inl (by decide)))

/-- C6 (claim refuted by the code): `normalize_url` is not idempotent.  The
raw URL `https://sites.google.com/view/x%2523` normalises to
`.../x%23` (the `%25` escape decodes to `%`), and re-normalising that value
decodes `%23` to `#`, yielding the different value `.../x#`. -/
theorem normalize_url_not_idempotent :
    normalize_url "https://sites.google.com/view/x%2523"
        "https://sites.google.com/view/reglement-flashback-fa/accueil"
      = some "https://sites.google.com/view/x%23" ∧
    normalize_url "https://sites.google.com/view/x%23"
        "https://sites.google.com/view/reglement-flashback-fa/accueil"
      = some "https://sites.google.com/view/x#" ∧
    "https://sites.google.com/view/x#" ≠ "https://sites.google.com/view/x%23" := by
  decide

/-- C6 amended: normalisation is idempotent for every normalised value that
is an absolute `http(s)` URL containing no percent sign and no fragment
delimiter (percent-decoding can otherwise introduce fresh `%`/`#`
characters, which a second normalisation decodes or strips). -/
theorem normalize_url_idempotent_clean
    (raw base base2 v : String)
    (h : normalize_url raw base = some v)
    (habs : startsWithS v "http://" = true ∨ startsWithS v "https://" = true)
    (hpc : v.toList.contains '%' = false)
    (hfr : v.toList.contains '#' = false) :
    normalize_url v base2 = some v := by
  have hfb : is_flashback_url v = true := normalize_url_flashback h
  have h1 : urljoin base2 v = v := urljoin_absolute habs
  have h2 : stripFrag v = v :=
    stripFrag_of_no_hash (by simp only [hfr]; exact Bool.false_ne_true)
  have h3 : percentDecode v = v :=
    percentDecode_of_no_percent (by simp only [hpc]; exact Bool.false_ne_true)
  simp only [normalize_url, h1, h2, h3, hfb, if_true]

/-- Witness for the amended C6 at a clean absolute URL. -/
theorem normalize_url_idempotent_clean_witness :
    normalize_url "https://sites.google.com/view/abc" "https://x/"
      = some "https://sites.google.com/view/abc" :=
  normalize_url_idempotent_clean "https://sites.google.com/view/abc"
    "https://x/" "https://x/" "https://sites.google.com/view/abc"
    (by decide) (Or.inr (by decide)) (by decide) (by decide)

/-- C3 (claim refuted by the code): the attribute loop of the page
extractor has no early exit, so an element with both a direct source and a
lazy-load source contributes BOTH URLs — more than one attribute's value is
taken for a single element, contradicting "first non-empty wins". -/
theorem extract_img_multiple_attrs_taken :
    extractImgCandidates "https://sites.google.com/view/reglement-flashback-fa/p"
        ⟨some "https://host/a.jpg", some "https://host/b.jpg", none, none, none, ""⟩
      = ["https://host/a.jpg", "https://host/b.jpg"] ∧
    ("https://host/a.jpg" : String) ≠ "https://host/b.jpg" := by decide

/-- C3 amended: the candidate URLs are read from the ordered attribute list
(direct source, lazy-load sources, fallback source, source-set), and EVERY
non-empty attribute whose value normalises to an image URL passing the
noise filter contributes a candidate (not only the first); for a source-set
value, only the URL portion preceding the first descriptor is used. -/
theorem extract_img_each_attr_contributes
    (pageUrl : String) (img : ImgTag) (u : String)
    (hsk : should_skip_image u img.context = false)
    (hsrc :
      (∃ v, img.src = some v ∧ v ≠ "" ∧ normalize_image_url v pageUrl = some u) ∨
      (∃ v, img.dataSrc = some v ∧ v ≠ "" ∧ normalize_image_url v pageUrl = some u) ∨
      (∃ v, img.dataLazySrc = some v ∧ v ≠ "" ∧ normalize_image_url v pageUrl = some u) ∨
      (∃ v, img.dataOriginal = some v ∧ v ≠ "" ∧ normalize_image_url v pageUrl = some u) ∨
      (∃ v, img.srcset = some v ∧ v ≠ "" ∧
        normalize_image_url (srcsetFirstUrl v) pageUrl = some u)) :
    u ∈ extractImgCandidates pageUrl img := by
  unfold extractImgCandidates
  rcases hsrc with ⟨v, hv, hne, hn⟩ | ⟨v, hv, hne, hn⟩ | ⟨v, hv, hne, hn⟩ |
    ⟨v, hv, hne, hn⟩ | ⟨v, hv, hne, hn⟩
  · apply mem_attrStep_of_mem
    apply mem_attrStep_of_mem
    apply mem_attrStep_of_mem
    apply mem_attrStep_of_mem
    rw [hv]
    exact attrStep_mem_self hn hne hsk
  · apply mem_attrStep_of_mem
    apply mem_attrStep_of_mem
    apply mem_attrStep_of_mem
    rw [hv]
    exact attrStep_mem_self hn hne hsk
  · apply mem_attrStep_of_mem
    apply mem_attrStep_of_mem
    rw [hv]
    exact attrStep_mem_self hn hne hsk
  · apply mem_attrStep_of_mem
    rw [hv]
    exact attrStep_mem_self hn hne hsk
  · rw [hv]
    exact attrStep_mem_self hn hne hsk

/-- C2: accepted payloads never share a content digest.  (1) A payload
whose digest is already registered is rejected and persists nothing,
whatever its source URL; (2) the digest set grows monotonically across any
`download_image` call; (3) across a whole fetch phase the digests of the
persisted files remain duplicate-free. -/
theorem download_image_digest_uniqueness :
    (∀ (hasPillow : Bool) (u : String) (p : Payload) (persistOk : Bool) (s : DState),
      p.digest ∈ s.image_hashes →
      (download_image hasPillow u (.ok p) persistOk s).2 = false ∧
      (download_image hasPillow u (.ok p) persistOk s).1.saved = s.saved) ∧
    (∀ (hasPillow : Bool) (u : String) (fr : FetchResult) (persistOk : Bool)
      (s : DState) (d : String), d ∈ s.image_hashes →
      d ∈ (download_image hasPillow u fr persistOk s).1.image_hashes) ∧
    (∀ (hasPillow : Bool) (fetchImage : String → FetchResult)
      (persistOk : String → Bool) (urls : List String) (s : DState),
      s.saved.Nodup → (∀ x ∈ s.saved, x ∈ s.image_hashes) →
      (downloadRun hasPillow fetchImage persistOk urls s).1.saved.Nodup) :=
  ⟨fun hasPillow u p persistOk s hd =>
    download_image_dup_reject hasPillow u p persistOk s hd,
   fun hasPillow u fr persistOk s _ hd =>
    download_image_hashes_mono hasPillow u fr persistOk s hd,
   fun hasPillow fetchImage persistOk urls s hnd hsub =>
    downloadRun_saved_nodup hasPillow fetchImage persistOk urls s hnd hsub⟩

/-- Witness for C2: a well-formed payload whose digest is already in the
set is rejected without saving anything. -/
theorem download_image_digest_uniqueness_witness :
    (download_image true "https://h/dup.jpg" (.ok ⟨5000, "dd", some (500, 400)⟩)
        true ⟨["dd"], ⟨0, 0, 0, 0⟩, []⟩).2 = false ∧
    (download_image true "https://h/dup.jpg" (.ok ⟨5000, "dd", some (500, 400)⟩)
        true ⟨["dd"], ⟨0, 0, 0, 0⟩, []⟩).1.saved = [] :=
  download_image_digest_uniqueness.1 true "https://h/dup.jpg"
    ⟨5000, "dd", some (500, 400)⟩ true ⟨["dd"], ⟨0, 0, 0, 0⟩, []⟩ (by decide)

theorem foldl_filter_eq {α : Type} (p : α → Bool) (f : List String → α → List String)
    (hf : ∀ acc x, p x = false → f acc x = acc) :
    ∀ (l : List α) (acc : List String), (l.filter p).foldl f acc = l.foldl f acc := by
  intro l
  induction l with
  | nil => intro acc; rfl
  | cons x xs ih =>
    intro acc
    by_cases hx : p x = true
    · rw [List.filter_cons_of_pos hx]
      simp only [List.foldl_cons]
      exact ih _
    · have hx' : p x = false := by revert hx; cases p x <;> simp
      rw [List.filter_cons_of_neg (by simp [hx'])]
      simp only [List.foldl_cons, hf acc x hx']
      exact ih _

/-- A catalogue href contributes nothing in the first navbar loop. -/
theorem navStep1_catalogue {pageUrl : String} {visited acc : List String}
    {href : String} (h : containsSub (lowerStr href) "catalogue" = true) :
    navStep1 pageUrl visited acc href = acc := by
  unfold navStep1
  by_cases he : href = ""
  · rw [if_pos he]
  rw [if_neg he]
  cases hn : normalize_url href pageUrl with
  | none => rfl
  | some nu =>
    simp only []
    by_cases hv : nu ∈ visited
    · rw [if_pos hv]
    · rw [if_neg hv, if_pos h]

/-- A catalogue href contributes nothing in the second navbar loop. -/
theorem navStep2_catalogue {pageUrl : String} {acc : List String}
    {href : String} (h : containsSub (lowerStr href) "catalogue" = true) :
    navStep2 pageUrl acc href = acc := by
  unfold navStep2
  by_cases he : href = ""
  · rw [if_pos he]
  rw [if_neg he]
  by_cases hc : (containsSub href "view/" && containsSub href "reglement-flashback-fa") = true
  · rw [if_pos hc, if_pos h]
  · rw [if_neg hc]

/-- C5: deny-list precedence in navigation extraction.  (1) On every
extraction path, hrefs matching the catalogue deny-list contribute nothing:
dropping them from the anchor list leaves the result unchanged, even for
hrefs that also match the allow-list.  (2) Scenario: an entry page with two
in-scope links and a deny-listed catalogue link (which even matches the
allow-list keyword `illegal`) yields exactly the two in-scope URLs. -/
theorem navbar_denylist_precedence :
    (∀ (d : Doc) (pageUrl : String) (visited : List String),
      extract_navbar_urls
        ⟨d.anchors.filter (fun h => !containsSub (lowerStr h) "catalogue")⟩
        pageUrl visited
        = extract_navbar_urls d pageUrl visited) ∧
    extract_navbar_urls
      ⟨["https://sites.google.com/view/reglement-flashback-fa/police",
        "https://sites.google.com/view/reglement-flashback-fa/ems",
        "https://sites.google.com/view/reglement-flashback-fa/catalogue-illegal"]⟩
      "https://sites.google.com/view/reglement-flashback-fa/accueil"
      ["https://sites.google.com/view/reglement-flashback-fa/accueil"]
      = ["https://sites.google.com/view/reglement-flashback-fa/police",
         "https://sites.google.com/view/reglement-flashback-fa/ems"] := by
  constructor
  · intro d pageUrl visited
    unfold extract_navbar_urls
    simp only []
    rw [foldl_filter_eq _ (navStep1 pageUrl visited)
        (fun acc x hx => navStep1_catalogue (by simpa using hx)),
      foldl_filter_eq _ (navStep2 pageUrl)
        (fun acc x hx => navStep2_catalogue (by simpa using hx))]
  · decide

/-- The condition under which `download_image` increments `images_skipped`:
the noise re-check did not fire (so the fetch is reached), and then either
the HTTP status is not 200, or an exception escapes the fetch, or the
payload passes every validation gate but the persistence write fails. -/
def skipped_increment (hasPillow : Bool) (u : String) (fr : FetchResult)
    (persistOk : Bool) (s : DState) : Bool :=
  !(should_skip_image u "") &&
  (match fr with
   | .badStatus _ => true
   | .netError => true
   | .ok p =>
     decide (p.len ≤ MB15) && !(decide (p.digest ∈ s.image_hashes)) &&
     (if hasPillow then
        match p.dims with
        | none => false
        | some wh =>
          !(decide (wh.1 < 100 ∨ wh.2 < 100)) &&
          !(decide (4000 < wh.1 ∨ 3000 < wh.2))
      else decide (1000 ≤ p.len)) &&
     !persistOk)

/-- C10: frame property of the `images_skipped` counter.  Rejections for
noise patterns, oversize payloads, duplicate digests, bad dimensions (or
the no-decoder byte floor) and decode failures leave `images_skipped`
unchanged; it increments (by exactly one) precisely when the response
status is not 200, the fetch raises, or the write of a fully validated
payload raises. -/
theorem download_image_skipped_counter_frame (hasPillow : Bool) (u : String)
    (fr : FetchResult) (persistOk : Bool) (s : DState) :
    (download_image hasPillow u fr persistOk s).1.stats.images_skipped =
      s.stats.images_skipped +
        (if skipped_increment hasPillow u fr persistOk s then 1 else 0) := by
  unfold download_image skipped_increment
  by_cases hn : should_skip_image u "" = true
  · simp [hn]
  have hn' : should_skip_image u "" = false := by
    revert hn; cases should_skip_image u "" <;> simp
  simp only [hn', Bool.not_false, Bool.true_and, if_neg hn]
  cases fr with
  | badStatus c => simp
  | netError => simp
  | ok p =>
    simp only []
    by_cases h1 : p.len > MB15
    · have h1' : ¬ p.len ≤ MB15 := by omega
      simp [h1, h1']
    have h1' : p.len ≤ MB15 := by omega
    simp only [if_neg h1, h1', decide_True, Bool.true_and]
    by_cases h2 : p.digest ∈ s.image_hashes
    · simp [h2]
    simp only [if_neg h2, decide_eq_true_eq, h2, decide_False, Bool.not_false,
      Bool.true_and]
    cases hasPillow with
    | false =>
      simp only [Bool.false_eq_true, if_false]
      by_cases h3 : p.len < 1000
      · have h3' : ¬ 1000 ≤ p.len := by omega
        simp [h3, h3']
      · have h3' : 1000 ≤ p.len := by omega
        simp only [if_neg h3, h3', decide_True, Bool.true_and]
        cases persistOk <;> simp [persistStep]
    | true =>
      simp only [if_true]
      cases hd : p.dims with
      | none => simp
      | some wh =>
        obtain ⟨w, h⟩ := wh
        simp only []
        by_cases h3 : w < 100 ∨ h < 100
        · simp [h3]
        simp only [if_neg h3, h3, decide_False, Bool.not_false, Bool.true_and]
        by_cases h4 : 4000 < w ∨ 3000 < h
        · simp [h4]
        simp only [if_neg h4, h4, decide_False, Bool.not_false, Bool.true_and]
        cases persistOk <;> simp [persistStep]

/-- Witness for the amended C3: a lazy-load-only element contributes its
candidate. -/
theorem extract_img_each_attr_contributes_witness :
    "https://host/c.png" ∈ extractImgCandidates "https://p/"
      ⟨none, none, some "https://host/c.png", none, none, ""⟩ :=
  extract_img_each_attr_contributes "https://p/"
    ⟨none, none, some "https://host/c.png", none, none, ""⟩ "https://host/c.png"
    (by decide)
    (Or.inr (Or.inr (Or.inl ⟨"https://host/c.png", rfl, by decide, by decide⟩)))

/-- Phase 1 never touches `found_images`: the home page's markup is only
scanned for navigation links. -/
theorem discoverHome_found_images (fetchPage : String → Option (String × Doc))
    (base_url : String) (s : CrawlState) :
    (discoverHome fetchPage base_url s).found_images = s.found_images := by
  unfold discoverHome
  cases fetchPage base_url with
  | none => rfl
  | some pd =>
    obtain ⟨url, d⟩ := pd
    rfl

/-- The phase-2 home guard: a fetched page whose URL matches the home page
leaves `found_images` unchanged, whatever its markup. -/
theorem processResult_home (extractImages : Doc → String → List String)
    (homeNorm : String) (s : CrawlState) (url : String) (d : Doc)
    (h : isHomeUrl homeNorm url = true) :
    (processResult extractImages homeNorm s (some (url, d))).found_images
      = s.found_images := by
  unfold processResult
  simp only [if_pos h]

/-- Provenance of one phase-2 step: anything in `found_images` afterwards
was there before or came from a fetched non-home page. -/
theorem processResult_found_sub (extractImages : Doc → String → List String)
    (homeNorm : String) (s : CrawlState) (r : Option (String × Doc)) (f : String)
    (h : f ∈ (processResult extractImages homeNorm s r).found_images) :
    f ∈ s.found_images ∨ ∃ url d, r = some (url, d) ∧
      isHomeUrl homeNorm url = false ∧ f ∈ extractImages d url := by
  cases r with
  | none => exact Or.inl h
  | some pd =>
    obtain ⟨url, d⟩ := pd
    by_cases hh : isHomeUrl homeNorm url = true
    · simp only [processResult, if_pos hh] at h
      exact Or.inl h
    · simp only [processResult, if_neg hh] at h
      rcases mem_unionSet.mp h with h' | h'
      · exact Or.inl h'
      · exact Or.inr ⟨url, d, rfl,
          by revert hh; cases isHomeUrl homeNorm url <;> simp, h'⟩

/-- Provenance across the whole phase-2 loop. -/
theorem crawlLoop_found_sub (fetchPage : String → Option (String × Doc))
    (extractImages : Doc → String → List String) (homeNorm : String)
    (rem : List String) (s : CrawlState) (f : String)
    (h : f ∈ (crawlLoop fetchPage extractImages homeNorm rem s).found_images) :
    f ∈ s.found_images ∨ ∃ u url d, fetchPage u = some (url, d) ∧
      isHomeUrl homeNorm url = false ∧ f ∈ extractImages d url := by
  induction rem generalizing s with
  | nil => exact Or.inl h
  | cons u rest ih =>
    unfold crawlLoop at h
    rcases ih _ h with h' | h'
    · rcases processResult_found_sub _ _ _ _ _ h' with h'' | ⟨url, d, hr, hh, hf⟩
      · exact Or.inl h''
      · exact Or.inr ⟨u, url, d, hr, hh, hf⟩
    · exact Or.inr h'

/-- C4: the home page's media references never reach `found_images`.
(1) The discovery phase extracts navigation links only, leaving
`found_images` untouched for any home markup; (2) in the crawl phase, a
fetched page whose normalized URL equals the home URL or contains the home
marker is skipped before media extraction; (3) consequently everything in
the final `found_images` set stems from a fetched page that fails the
home-page test. -/
theorem crawl_home_media_never_collected
    (fetchPage : String → Option (String × Doc))
    (extractImages : Doc → String → List String) (base_url f : String) :
    (∀ s, (discoverHome fetchPage base_url s).found_images = s.found_images) ∧
    (∀ homeNorm s url d, isHomeUrl homeNorm url = true →
      (processResult extractImages homeNorm s (some (url, d))).found_images
        = s.found_images) ∧
    (f ∈ (finalCrawlState fetchPage extractImages base_url).found_images →
      ∃ u url d, fetchPage u = some (url, d) ∧
        isHomeUrl (stripQF base_url) url = false ∧ f ∈ extractImages d url) := by
  refine ⟨fun s => discoverHome_found_images _ _ _,
    fun homeNorm s url d h => processResult_home _ _ _ _ _ h,
    fun h => ?_⟩
  unfold finalCrawlState at h
  rcases crawlLoop_found_sub _ _ _ _ _ _ h with h' | h'
  · rw [discoverHome_found_images] at h'
    exact absurd h' (by simp [initialCrawlState])
  · exact h'

def fbBase : String := "https://sites.google.com/view/reglement-flashback-fa/accueil"

def fbNav : String := "https://sites.google.com/view/reglement-flashback-fa/police"

/-- Concrete page-fetch oracle: a home page linking to one navigation page. -/
def fbFetch : String → Option (String × Doc) := fun u =>
  if u = fbBase then some (fbBase, ⟨[fbNav]⟩)
  else if u = fbNav then some (fbNav, ⟨[]⟩)
  else none

/-- Concrete media-extraction oracle. -/
def fbExtract : Doc → String → List String := fun _ u =>
  if u = fbNav then ["https://host/pic.jpg"] else []

/-- Witness for C4: in a concrete run where a media URL ends up in
`found_images`, it stems from the (non-home) navigation page. -/
theorem crawl_home_media_never_collected_witness :
    ∃ u url d, fbFetch u = some (url, d) ∧
      isHomeUrl (stripQF fbBase) url = false ∧
      "https://host/pic.jpg" ∈ fbExtract d url :=
  (crawl_home_media_never_collected fbFetch fbExtract fbBase
    "https://host/pic.jpg").2.2 (by decide)

/-- C9: if the fetch of the entry page fails (timeout, transport error or
non-200 status — `fetch_page` returns no result), the run still returns a
final report, with zero pages crawled, zero media found and zero media
downloaded. -/
theorem crawl_entry_fetch_failure_zero_stats
    (fetchPage : String → Option (String × Doc))
    (extractImages : Doc → String → List String) (hasPillow : Bool)
    (fetchImage : String → FetchResult) (persistOk : String → Bool)
    (base_url : String) (h : fetchPage base_url = none) :
    crawl_flashback_site fetchPage extractImages hasPillow fetchImage persistOk
      base_url = ⟨0, 0, 0⟩ := by
  unfold crawl_flashback_site finalCrawlState discoverHome
  rw [h]
  simp [initialCrawlState, crawlLoop, downloadRun]

/-- Witness for C9 with a fetch oracle that always fails. -/
theorem crawl_entry_fetch_failure_zero_stats_witness :
    crawl_flashback_site (fun _ => none) (fun _ _ => []) true
      (fun _ => FetchResult.netError) (fun _ => true)
      "https://sites.google.com/view/reglement-flashback-fa/accueil" = ⟨0, 0, 0⟩ :=
  crawl_entry_fetch_failure_zero_stats _ _ _ _ _ _ rfl

end Scraper
